import Mathlib

/-!
Verification of the quickdraw drawing game (React + TypeScript).

This file gives a shallow embedding, in Lean 4, of the game's core logic:

* `src/hooks/useImageRecognition.ts` — the `checkMatch` fuzzy match evaluator
  and the `classifyDrawing` classifier wrapper;
* `src/hooks/useGameLogic.ts` — the round/game state machine
  (`handleRoundEnd`, `getRandomPrompt`, `startGame`, `saveHighScore`,
  `resetGame`, the one-second timer effect).

JavaScript strings are modelled as Lean `String`s (processed through their
character lists), JavaScript numbers holding integral game quantities as
`Nat`, and classifier confidences as `ℚ`.  React state is modelled as an
explicit record `GameLogicState`, with each hook callback an explicit state
transformer.  Where a scheduled callback closes over values captured at an
earlier render (a standard property of `useCallback` closures), the captured
values are passed to the model of the callback explicitly.
-/

namespace Quickdraw

/-- A classifier prediction as used by the game
(`{ className: string, probability: number }` in `types/index.ts`). -/
structure Prediction where
  className : String
  probability : ℚ
deriving DecidableEq

/-- The record returned by `checkMatch` in `useImageRecognition.ts`:
`{ matched: boolean; confidence: number; bestMatch: string }`. -/
structure CheckMatchResult where
  matched : Bool
  confidence : ℚ
  bestMatch : String
deriving DecidableEq

/-- `toLowerCase` on a character list (ASCII-faithful model of
`String.prototype.toLowerCase`). -/
def lowerChars (l : List Char) : List Char := l.map Char.toLower

/-- `toLowerCase` on a string. -/
def jsToLower (s : String) : String := ⟨lowerChars s.data⟩

/-- `b.startsWith(a)` is `charsIsPrefixOf a b` on the character lists. -/
def charsIsPrefixOf : List Char → List Char → Bool
  | [], _ => true
  | _ :: _, [] => false
  | a :: as, b :: bs => a == b && charsIsPrefixOf as bs

/-- `b.includes(a)` is `charsIsInfixOf a b` on the character lists
(in particular the empty pattern is contained in every string,
as in JavaScript). -/
def charsIsInfixOf (pat : List Char) : List Char → Bool
  | [] => pat.isEmpty
  | b :: bs => charsIsPrefixOf pat (b :: bs) || charsIsInfixOf pat bs

/-- The separator class of the regular expression `[\s,]` used by
`checkMatch` to split a label into words. -/
def isSeparator (c : Char) : Bool := c.isWhitespace || c == ','

/-- Split at every single separator character (an empty token between two
adjacent separators). Helper for `jsSplit`. -/
def splitCore : List Char → List (List Char)
  | [] => [[]]
  | c :: cs =>
    if isSeparator c then [] :: splitCore cs
    else
      match splitCore cs with
      | t :: ts => (c :: t) :: ts
      | [] => [[c]]

/-- Model of JavaScript `String.prototype.split(/[\s,]+/)`: a run of
separator characters acts as one delimiter, and a leading or trailing run
contributes an empty token at that end (as the regex engine does). -/
def jsSplit (l : List Char) : List (List Char) :=
  let raw := splitCore l
  let core := raw.filter (fun t => !t.isEmpty)
  (if raw.head? = some [] then [[]] else []) ++ core ++
    (if 1 < raw.length ∧ raw.getLast? = some [] then [[]] else [])

/-- The three variants of the target that the spec names: naive
pluralization, last character stripped, trailing `s` removed. -/
def specVariants (t : List Char) : List (List Char) :=
  [t ++ ['s'], t.dropLast, if t.getLast? == some 's' then t.dropLast else t]

/-- The `targetVariations` array built by `checkMatch`:
`[targetLower, targetLower + 's', targetLower.slice(0, -1),
targetLower.replace(/s$/, '')]`. -/
def targetVariationsOf (targetLower : List Char) : List (List Char) :=
  [targetLower, targetLower ++ ['s'], targetLower.dropLast,
   if targetLower.getLast? == some 's' then targetLower.dropLast else targetLower]

/-- The callback of `predictions.some(...)` inside `checkMatch`: the four
matching strategies tried in order with early `return true`, which is the
disjunction of the four conditions.  `className` is already lowercased by
the caller, as in the source. -/
def labelMatches (targetLower : List Char) (targetVariations : List (List Char))
    (className : List Char) : Bool :=
  (charsIsInfixOf targetLower className || charsIsInfixOf className targetLower)
  || targetVariations.any (fun variation =>
       charsIsInfixOf variation className || charsIsInfixOf className variation)
  || (jsSplit className).any (fun word =>
       word == targetLower || targetVariations.contains word
       || charsIsPrefixOf targetLower word || charsIsPrefixOf word targetLower)
  || (jsSplit className).any (fun word => charsIsInfixOf targetLower word)

/-- `checkMatch` from `useImageRecognition.ts`: early-returns the empty
result on an empty prediction list, otherwise takes `confidence` and
`bestMatch` from `predictions[0]` and declares a match when any prediction's
lowercased label satisfies one of the four strategies. -/
def checkMatch (predictions : List Prediction) (targetPrompt : String) : CheckMatchResult :=
  match predictions with
  | [] => { matched := false, confidence := 0, bestMatch := "" }
  | p0 :: _ =>
    let targetLower := lowerChars targetPrompt.data
    { matched := predictions.any (fun pred =>
        labelMatches targetLower (targetVariationsOf targetLower) (lowerChars pred.className.data)),
      confidence := p0.probability,
      bestMatch := jsToLower p0.className }

/-- Spec §4.2 strategy 1: substring match in either direction. -/
def specStrategySubstring (t c : List Char) : Bool :=
  charsIsInfixOf t c || charsIsInfixOf c t

/-- Spec §4.2 strategy 2: a variant of the target as a substring of the
label or vice versa. -/
def specStrategyVariant (t c : List Char) : Bool :=
  (specVariants t).any (fun v => charsIsInfixOf v c || charsIsInfixOf c v)

/-- Spec §4.2 strategy 3: some word of the label equals the target, equals a
variant, or is a mutual string-prefix with the target. -/
def specStrategyToken (t c : List Char) : Bool :=
  (jsSplit c).any (fun w =>
    w == t || (specVariants t).contains w || charsIsPrefixOf t w || charsIsPrefixOf w t)

/-- Spec §4.2 strategy 4: the target appears inside some word of the label. -/
def specStrategyTokenSub (t c : List Char) : Bool :=
  (jsSplit c).any (fun w => charsIsInfixOf t w)

/-- Modelled from the spec's description of the Match Evaluator: a label
matches the target when one of the four case-insensitive strategies holds. -/
def specLabelMatch (label target : String) : Bool :=
  specStrategySubstring (lowerChars target.data) (lowerChars label.data)
  || specStrategyVariant (lowerChars target.data) (lowerChars label.data)
  || specStrategyToken (lowerChars target.data) (lowerChars label.data)
  || specStrategyTokenSub (lowerChars target.data) (lowerChars label.data)

lemma any_congr {α : Type} {f g : α → Bool} (l : List α) (h : ∀ a, f a = g a) :
    l.any f = l.any g := by
  induction l with
  | nil => rfl
  | cons x xs ih => simp [List.any_cons, h x, ih]

lemma labelMatches_eq_spec (t c : List Char) :
    labelMatches t (targetVariationsOf t) c =
      (specStrategySubstring t c || specStrategyVariant t c
        || specStrategyToken t c || specStrategyTokenSub t c) := by
  have hvar : targetVariationsOf t = t :: specVariants t := rfl
  rw [labelMatches, hvar, specStrategySubstring, specStrategyVariant, specStrategyToken,
    specStrategyTokenSub]
  rw [any_congr (jsSplit c)
    (g := fun w => w == t || (specVariants t).contains w
      || charsIsPrefixOf t w || charsIsPrefixOf w t)
    (fun w => by by_cases hw : w = t <;> simp [List.contains_cons, hw])]
  simp only [List.any_cons]
  cases charsIsInfixOf t c <;> cases charsIsInfixOf c t <;> simp

/-- C3: `checkMatch` declares `matched = true` iff some prediction label
satisfies one of the four case-insensitive strategies (bidirectional
substring, plural/last-char variants, token equality or mutual prefix,
target-substring-in-token) against the target; moreover
`checkMatch([{className:"golden retriever"}], "dog")` is not matched,
while `"dogs"`/`"dog"`, `"cell phone"`/`"phone"` and `"racecar"`/`"car"`
are matched. -/
theorem checkMatch_iff_strategies_and_examples :
    (∀ (predictions : List Prediction) (targetPrompt : String),
       ((checkMatch predictions targetPrompt).matched = true
         ↔ ∃ p ∈ predictions, specLabelMatch p.className targetPrompt = true))
    ∧ (checkMatch [⟨"golden retriever", 9/10⟩] "dog").matched = false
    ∧ (checkMatch [⟨"dogs", 1/2⟩] "dog").matched = true
    ∧ (checkMatch [⟨"cell phone", 1/2⟩] "phone").matched = true
    ∧ (checkMatch [⟨"racecar", 1/2⟩] "car").matched = true := by
  refine ⟨?_, by decide, by decide, by decide, by decide⟩
  intro predictions targetPrompt
  cases predictions with
  | nil => simp [checkMatch]
  | cons p ps =>
    have hm : (checkMatch (p :: ps) targetPrompt).matched
        = (p :: ps).any (fun pred =>
            labelMatches (lowerChars targetPrompt.data)
              (targetVariationsOf (lowerChars targetPrompt.data))
              (lowerChars pred.className.data)) := rfl
    rw [hm, any_congr _ (fun pred => labelMatches_eq_spec _ _), List.any_eq_true]
    simp only [specLabelMatch]

/-- C6: for every non-empty prediction list, `checkMatch` takes `confidence`
and `bestMatch` from the prediction at index 0 (the latter lowercased),
regardless of which prediction satisfied the match. -/
theorem checkMatch_top_prediction (p : Prediction) (ps : List Prediction)
    (targetPrompt : String) :
    (checkMatch (p :: ps) targetPrompt).confidence = p.probability
    ∧ (checkMatch (p :: ps) targetPrompt).bestMatch = jsToLower p.className :=
  ⟨rfl, rfl⟩

/-- C10: on the empty prediction list, `checkMatch` is total and returns
`matched = false`, `confidence = 0` and the empty `bestMatch`, for every
target. -/
theorem checkMatch_empty_predictions (targetPrompt : String) :
    checkMatch [] targetPrompt = { matched := false, confidence := 0, bestMatch := "" } :=
  rfl

/-! ### The classifier wrapper (`useImageRecognition.ts`) -/

/-- A prediction as produced by the external MobileNet model
(`@tensorflow-models/mobilenet`), before `classifyDrawing` converts it to
the game's `Prediction` type. -/
structure MobileNetPrediction where
  className : String
  probability : ℚ
deriving DecidableEq

/-- The external, pre-trained MobileNet classifier, treated as a black box:
`classify` either returns ranked predictions or fails (a rejected promise /
thrown error, modelled with `Except`). -/
structure MobileNetModel where
  classify : String → Except String (List MobileNetPrediction)

/-- `classifyDrawing` from `useImageRecognition.ts`: returns `[]` when the
model is not loaded (`model = none`), catches any internal classification
failure and returns `[]` (the `catch` branch), and otherwise maps the
model's predictions to `{ className, probability }` pairs.  The successful
image-element load awaited by the source is modelled as part of
`MobileNetModel.classify`. -/
def classifyDrawing (model : Option MobileNetModel) (imageData : String) : List Prediction :=
  match model with
  | none => []
  | some model =>
    match model.classify imageData with
    | Except.ok predictions =>
        predictions.map (fun pred =>
          { className := pred.className, probability := pred.probability })
    | Except.error _ => []

/-! ### The round/game state machine (`useGameLogic.ts`) -/

/-- The `GameState` union type from `types/index.ts`. -/
inductive GameState where
  | start
  | playing
  | result
  | leaderboard
deriving DecidableEq

/-- A drawing prompt (`Prompt` in `types/index.ts`). -/
structure Prompt where
  id : Nat
  text : String
  category : String
deriving DecidableEq

/-- A completed round (`RoundResult` in `types/index.ts`). -/
structure RoundResult where
  prompt : String
  userDrawing : String
  predictions : List Prediction
  correct : Bool
  timeUsed : Nat
  score : Nat
deriving DecidableEq

/-- A leaderboard entry (`GameScore` in `types/index.ts`).  `accuracy` is a
percentage computed with JavaScript division, modelled in `ℚ`; `timestamp`
(`new Date()` in the source) is modelled as a `Nat` clock value. -/
structure GameScore where
  playerName : String
  score : Nat
  accuracy : ℚ
  timeRemaining : Nat
  prompt : String
  timestamp : Nat
deriving DecidableEq

/-- The prompt catalog hard-coded at the top of `useGameLogic.ts`. -/
def PROMPTS : List Prompt :=
  [⟨1, "dog", "animal"⟩, ⟨2, "cat", "animal"⟩, ⟨3, "car", "vehicle"⟩,
   ⟨4, "airplane", "vehicle"⟩, ⟨5, "house", "building"⟩, ⟨6, "tree", "nature"⟩,
   ⟨7, "sun", "nature"⟩, ⟨8, "banana", "food"⟩, ⟨9, "apple", "food"⟩,
   ⟨10, "pizza", "food"⟩, ⟨11, "shoe", "object"⟩, ⟨12, "cup", "object"⟩,
   ⟨13, "ball", "object"⟩, ⟨14, "chair", "furniture"⟩, ⟨15, "table", "furniture"⟩,
   ⟨16, "phone", "technology"⟩, ⟨17, "laptop", "technology"⟩,
   ⟨18, "bird", "animal"⟩, ⟨19, "fish", "animal"⟩, ⟨20, "flower", "nature"⟩]

def TIME_LIMIT : Nat := 20

def POINTS_PER_CORRECT : Nat := 100

def TIME_BONUS_MULTIPLIER : Nat := 10

/-- The React state of `useGameLogic`, as one record.  `storedHighScores`
models the `quickdraw-highscores` slot of `localStorage`. -/
structure GameLogicState where
  gameState : GameState
  currentPrompt : Option Prompt
  timeRemaining : Nat
  score : Nat
  roundNumber : Nat
  totalRounds : Nat
  roundResults : List RoundResult
  playerName : String
  highScores : List GameScore
  storedHighScores : List GameScore
deriving DecidableEq

/-- `getRandomPrompt` from `useGameLogic.ts`, with the random draw
`Math.floor(Math.random() * prompts.length)` modelled by `k % prompts.length`
for an arbitrary `k` supplied by the environment. -/
def getRandomPrompt (k : Nat) (roundResults : List RoundResult) : Prompt :=
  let availablePrompts := PROMPTS.filter
    (fun p => !(roundResults.any (fun r => r.prompt == p.text)))
  let prompts := if 0 < availablePrompts.length then availablePrompts else PROMPTS
  (prompts.get? (k % prompts.length)).getD ⟨0, "", ""⟩

/-- `startGame` from `useGameLogic.ts`.  `if (name) setPlayerName(name)`
keeps the old name for a missing or empty argument (the empty string is
falsy).  The `getRandomPrompt` closure it calls was captured before
`setRoundResults([])` takes effect, so it still filters against the
round results of the previous session (`s.roundResults`). -/
def startGame (k : Nat) (name : Option String) (s : GameLogicState) : GameLogicState :=
  { s with
    playerName := match name with
      | some n => if n == "" then s.playerName else n
      | none => s.playerName,
    gameState := GameState.playing,
    score := 0,
    roundNumber := 1,
    roundResults := [],
    timeRemaining := TIME_LIMIT,
    currentPrompt := some (getRandomPrompt k s.roundResults) }

/-- The synchronous body of `handleRoundEnd` from `useGameLogic.ts`: a no-op
when `currentPrompt` is null, otherwise computes `timeUsed` and the round
score, adds the score when `correct`, and appends the `RoundResult`.  The
two `setTimeout(..., 1500)` continuations it schedules are modelled
separately (`roundEndResultCallback`, `roundEndNextRoundCallback`). -/
def handleRoundEnd (correct : Bool) (predictions : List Prediction) (imageData : String)
    (s : GameLogicState) : GameLogicState :=
  match s.currentPrompt with
  | none => s
  | some currentPrompt =>
    let timeUsed := TIME_LIMIT - s.timeRemaining
    let roundScore := if correct then POINTS_PER_CORRECT + s.timeRemaining * TIME_BONUS_MULTIPLIER else 0
    let result : RoundResult :=
      { prompt := currentPrompt.text, userDrawing := imageData, predictions := predictions,
        correct := correct, timeUsed := timeUsed, score := roundScore }
    { s with
      score := if correct then s.score + roundScore else s.score,
      roundResults := s.roundResults ++ [result] }

/-- The timer effect of `useGameLogic.ts` over one elapsed second: while
playing with time left it decrements `timeRemaining` by 1; when
`timeRemaining` is 0 and the game is still playing it calls
`handleRoundEnd(false, [], '')`. -/
def tick (s : GameLogicState) : GameLogicState :=
  if s.gameState = GameState.playing ∧ 0 < s.timeRemaining then
    { s with timeRemaining := s.timeRemaining - 1 }
  else if s.timeRemaining = 0 ∧ s.gameState = GameState.playing then
    handleRoundEnd false [] "" s
  else s

/-- `skipRound` from `useGameLogic.ts`. -/
def skipRound (s : GameLogicState) : GameLogicState :=
  handleRoundEnd false [] "" s

/-- A concrete mid-game state: round 1 of 5 in progress, prompt `dog`,
15 seconds left, nothing scored yet. -/
def sampleState : GameLogicState :=
  { gameState := GameState.playing, currentPrompt := some ⟨1, "dog", "animal"⟩,
    timeRemaining := 15, score := 0, roundNumber := 1, totalRounds := 5,
    roundResults := [], playerName := "Player", highScores := [], storedHighScores := [] }

/-- `sampleState` with the clock run out. -/
def sampleTimeoutState : GameLogicState :=
  { sampleState with timeRemaining := 0 }

/-- Stable descending insertion by `score`: the inserted element goes after
every earlier element of greater-or-equal score.  Helper for
`sortScoresDesc`. -/
def insertScoreDesc (x : GameScore) : List GameScore → List GameScore
  | [] => [x]
  | y :: ys => if x.score < y.score then y :: insertScoreDesc x ys else x :: y :: ys

/-- Model of ECMAScript `Array.prototype.sort` (a stable sort, per the
language specification) with the comparator `(a, b) => b.score - a.score`
used by `saveHighScore`: entries ordered by descending `score`, equal
scores keeping their relative order. -/
def sortScoresDesc : List GameScore → List GameScore
  | [] => []
  | x :: xs => insertScoreDesc x (sortScoresDesc xs)

/-- The `newScore` object built by `saveHighScore`, from the state the
closure captured.  `now` models `new Date()`. -/
def mkGameScore (s : GameLogicState) (now : Nat) : GameScore :=
  { playerName := s.playerName,
    score := s.score,
    accuracy := ((s.roundResults.filter (fun r => r.correct)).length : ℚ) / (s.totalRounds : ℚ) * 100,
    timeRemaining := s.timeRemaining,
    prompt := (s.currentPrompt.map Prompt.text).getD "",
    timestamp := now }

/-- `saveHighScore` from `useGameLogic.ts`: appends the new entry to the
current list, sorts descending by score (stably), keeps the top 10, and
writes the result both to the `highScores` state and to `localStorage`. -/
def saveHighScore (now : Nat) (s : GameLogicState) : GameLogicState :=
  let updatedScores := (sortScoresDesc (s.highScores ++ [mkGameScore s now])).take 10
  { s with highScores := updatedScores, storedHighScores := updatedScores }

/-- The game-over `setTimeout` continuation scheduled by `handleRoundEnd`:
`setGameState('result'); saveHighScore()`.  `saveHighScore` is not in
`handleRoundEnd`'s dependency array, so the callback runs the
`saveHighScore` closure captured when this `handleRoundEnd` was created;
that closure reads the state from before the round ended, passed here
explicitly as `stale`. -/
def roundEndResultCallback (stale : GameLogicState) (now : Nat)
    (s : GameLogicState) : GameLogicState :=
  let saved := saveHighScore now stale
  { s with
    gameState := GameState.result,
    highScores := saved.highScores,
    storedHighScores := saved.storedHighScores }

/-- The next-round `setTimeout` continuation scheduled by `handleRoundEnd`.
The `getRandomPrompt` closure it calls was captured from the render that
created this `handleRoundEnd`, whose `roundResults` do not yet include the
result the surrounding call appends; those stale results are passed here
explicitly as `staleResults`. -/
def roundEndNextRoundCallback (k : Nat) (staleResults : List RoundResult)
    (s : GameLogicState) : GameLogicState :=
  { s with
    roundNumber := s.roundNumber + 1,
    timeRemaining := TIME_LIMIT,
    currentPrompt := some (getRandomPrompt k staleResults) }

/-- One `handleRoundEnd` call together with the `setTimeout` continuation it
schedules (assuming no further call lands in the 1500 ms window): the
synchronous part, then either the game-over continuation (when
`roundNumber >= totalRounds`) or the next-round continuation, each applied
to the values its closure captured. -/
def handleRoundEndFull (k now : Nat) (correct : Bool) (predictions : List Prediction)
    (imageData : String) (s : GameLogicState) : GameLogicState :=
  match s.currentPrompt with
  | none => s
  | some _ =>
    let s1 := handleRoundEnd correct predictions imageData s
    if s.totalRounds ≤ s.roundNumber then roundEndResultCallback s now s1
    else roundEndNextRoundCallback k s.roundResults s1

/-- `resetGame` from `useGameLogic.ts`: back to the start screen, clearing
prompt, timer, score, round counter and round results.  It does not touch
`playerName`, `highScores` or the persisted `localStorage` value. -/
def resetGame (s : GameLogicState) : GameLogicState :=
  { s with
    gameState := GameState.start,
    currentPrompt := none,
    timeRemaining := TIME_LIMIT,
    score := 0,
    roundNumber := 0,
    roundResults := [] }

/-- C1: when a round ends with `currentPrompt` set, exactly one
`RoundResult` is appended; its `timeUsed` satisfies
`timeUsed + timeRemaining = TIME_LIMIT`; on a match the round score is
`100 + timeRemaining * 10`, lies in `[100, 300]`, and is added to the total
score; on a non-match the round score is 0 and the total score is
unchanged. -/
theorem handleRoundEnd_scoring (correct : Bool) (predictions : List Prediction)
    (imageData : String) (s : GameLogicState) (cp : Prompt)
    (hcp : s.currentPrompt = some cp) (ht : s.timeRemaining ≤ TIME_LIMIT) :
    ∃ r : RoundResult,
      (handleRoundEnd correct predictions imageData s).roundResults = s.roundResults ++ [r]
      ∧ r.timeUsed + s.timeRemaining = TIME_LIMIT
      ∧ (correct = true →
          r.score = 100 + s.timeRemaining * 10
          ∧ 100 ≤ r.score ∧ r.score ≤ 300
          ∧ (handleRoundEnd correct predictions imageData s).score = s.score + r.score)
      ∧ (correct = false →
          r.score = 0
          ∧ (handleRoundEnd correct predictions imageData s).score = s.score) := by
  have ht20 : s.timeRemaining ≤ 20 := ht
  cases correct with
  | false =>
    refine ⟨{ prompt := cp.text, userDrawing := imageData, predictions := predictions,
              correct := false, timeUsed := TIME_LIMIT - s.timeRemaining, score := 0 },
            ?_, Nat.sub_add_cancel ht, ?_, ?_⟩
    · simp [handleRoundEnd, hcp]
    · intro h; cases h
    · intro _; exact ⟨rfl, by simp [handleRoundEnd, hcp]⟩
  | true =>
    refine ⟨{ prompt := cp.text, userDrawing := imageData, predictions := predictions,
              correct := true, timeUsed := TIME_LIMIT - s.timeRemaining,
              score := POINTS_PER_CORRECT + s.timeRemaining * TIME_BONUS_MULTIPLIER },
            ?_, Nat.sub_add_cancel ht, ?_, ?_⟩
    · simp [handleRoundEnd, hcp]
    · intro _
      refine ⟨rfl, Nat.le_add_right _ _, ?_, by simp [handleRoundEnd, hcp]⟩
      show 100 + s.timeRemaining * 10 ≤ 300
      omega
    · intro h; cases h

/-- C1 witness: the theorem instantiated at `sampleState` with a match at
15 seconds remaining. -/
theorem handleRoundEnd_scoring_witness :
    sampleState.currentPrompt = some ⟨1, "dog", "animal"⟩
    ∧ sampleState.timeRemaining ≤ TIME_LIMIT
    ∧ ∃ r : RoundResult,
        (handleRoundEnd true [] "" sampleState).roundResults = sampleState.roundResults ++ [r]
        ∧ r.timeUsed + sampleState.timeRemaining = TIME_LIMIT
        ∧ (true = true →
            r.score = 100 + sampleState.timeRemaining * 10
            ∧ 100 ≤ r.score ∧ r.score ≤ 300
            ∧ (handleRoundEnd true [] "" sampleState).score = sampleState.score + r.score)
        ∧ (true = false →
            r.score = 0
            ∧ (handleRoundEnd true [] "" sampleState).score = sampleState.score) :=
  ⟨rfl, by decide,
    handleRoundEnd_scoring true [] "" sampleState ⟨1, "dog", "animal"⟩ rfl (by decide)⟩

/-- C2 (refuting evaluation): `handleRoundEnd` has no round-already-ended
guard; called a second time inside the 1500 ms transition window it appends
a second `RoundResult` and adds the round score again (here 250 points
twice), instead of being a no-op. -/
theorem handleRoundEnd_double_call_double_counts :
    (handleRoundEnd true [] "" sampleState).roundResults.length = 1
    ∧ (handleRoundEnd true [] "" sampleState).score = 250
    ∧ (handleRoundEnd true [] "" (handleRoundEnd true [] "" sampleState)).roundResults.length = 2
    ∧ (handleRoundEnd true [] "" (handleRoundEnd true [] "" sampleState)).score = 500 := by
  decide

/-- C7: while playing with time left, a tick decrements `timeRemaining` by
exactly 1 and changes nothing else; when `timeRemaining` reaches 0 the tick
performs `handleRoundEnd(false, [], '')`, appending a round with
`correct = false`, 0 points and `timeUsed = 20`, leaving the total score
unchanged. -/
theorem tick_spec (s : GameLogicState) (cp : Prompt)
    (hplay : s.gameState = GameState.playing) (hcp : s.currentPrompt = some cp) :
    (0 < s.timeRemaining → tick s = { s with timeRemaining := s.timeRemaining - 1 })
    ∧ (s.timeRemaining = 0 →
        tick s = handleRoundEnd false [] "" s
        ∧ ∃ r : RoundResult,
            (tick s).roundResults = s.roundResults ++ [r]
            ∧ r.correct = false ∧ r.score = 0 ∧ r.timeUsed = 20
            ∧ (tick s).score = s.score) := by
  constructor
  · intro h
    simp [tick, hplay, h]
  · intro h0
    have heq : tick s = handleRoundEnd false [] "" s := by
      simp [tick, hplay, h0]
    refine ⟨heq, ⟨{ prompt := cp.text, userDrawing := "", predictions := [],
                    correct := false, timeUsed := TIME_LIMIT - s.timeRemaining, score := 0 },
                  ?_, rfl, rfl, ?_, ?_⟩⟩
    · rw [heq]; simp [handleRoundEnd, hcp]
    · show TIME_LIMIT - s.timeRemaining = 20
      rw [h0]
      rfl
    · rw [heq]; simp [handleRoundEnd, hcp]

/-- C7 witness: the theorem instantiated at the timed-out sample state. -/
theorem tick_spec_witness :
    sampleTimeoutState.gameState = GameState.playing
    ∧ sampleTimeoutState.currentPrompt = some ⟨1, "dog", "animal"⟩
    ∧ ((0 < sampleTimeoutState.timeRemaining →
          tick sampleTimeoutState
            = { sampleTimeoutState with
                  timeRemaining := sampleTimeoutState.timeRemaining - 1 })
        ∧ (sampleTimeoutState.timeRemaining = 0 →
            tick sampleTimeoutState = handleRoundEnd false [] "" sampleTimeoutState
            ∧ ∃ r : RoundResult,
                (tick sampleTimeoutState).roundResults
                  = sampleTimeoutState.roundResults ++ [r]
                ∧ r.correct = false ∧ r.score = 0 ∧ r.timeUsed = 20
                ∧ (tick sampleTimeoutState).score = sampleTimeoutState.score)) :=
  ⟨rfl, rfl, tick_spec sampleTimeoutState ⟨1, "dog", "animal"⟩ rfl rfl⟩

/-- C9: `resetGame`, from any state, returns to the start screen with the
prompt cleared, score 0, round number 0, the timer back at the time limit
and no round results, while leaving the `highScores` state and the
persisted `localStorage` value unchanged. -/
theorem resetGame_spec (s : GameLogicState) :
    (resetGame s).gameState = GameState.start
    ∧ (resetGame s).currentPrompt = none
    ∧ (resetGame s).timeRemaining = TIME_LIMIT
    ∧ (resetGame s).score = 0
    ∧ (resetGame s).roundNumber = 0
    ∧ (resetGame s).roundResults = []
    ∧ (resetGame s).highScores = s.highScores
    ∧ (resetGame s).storedHighScores = s.storedHighScores :=
  ⟨rfl, rfl, rfl, rfl, rfl, rfl, rfl, rfl⟩

/-- Descending sortedness by `score`. -/
def SortedDesc (l : List GameScore) : Prop :=
  l.Pairwise (fun a b => b.score ≤ a.score)

lemma mem_insertScoreDesc {x z : GameScore} {l : List GameScore}
    (h : z ∈ insertScoreDesc x l) : z = x ∨ z ∈ l := by
  induction l with
  | nil => simpa [insertScoreDesc] using h
  | cons y ys ih =>
    rw [insertScoreDesc] at h
    by_cases hc : x.score < y.score
    · rw [if_pos hc] at h
      rcases List.mem_cons.mp h with rfl | h'
      · exact Or.inr (List.mem_cons_self _ _)
      · rcases ih h' with rfl | hz
        · exact Or.inl rfl
        · exact Or.inr (List.mem_cons_of_mem _ hz)
    · rw [if_neg hc] at h
      rcases List.mem_cons.mp h with rfl | h'
      · exact Or.inl rfl
      · exact Or.inr h'

lemma sortedDesc_insertScoreDesc (x : GameScore) {l : List GameScore}
    (h : SortedDesc l) : SortedDesc (insertScoreDesc x l) := by
  induction l with
  | nil => simp [insertScoreDesc, SortedDesc]
  | cons y ys ih =>
    rw [SortedDesc, List.pairwise_cons] at h
    rw [insertScoreDesc]
    by_cases hc : x.score < y.score
    · rw [if_pos hc]
      rw [SortedDesc, List.pairwise_cons]
      refine ⟨?_, ih h.2⟩
      intro z hz
      rcases mem_insertScoreDesc hz with rfl | hz'
      · exact Nat.le_of_lt hc
      · exact h.1 z hz'
    · rw [if_neg hc]
      rw [SortedDesc, List.pairwise_cons]
      refine ⟨?_, List.pairwise_cons.mpr h⟩
      intro z hz
      rcases List.mem_cons.mp hz with rfl | hz'
      · exact Nat.le_of_not_lt hc
      · exact le_trans (h.1 z hz') (Nat.le_of_not_lt hc)

lemma sortedDesc_sortScoresDesc (l : List GameScore) : SortedDesc (sortScoresDesc l) := by
  induction l with
  | nil => simp [sortScoresDesc, SortedDesc]
  | cons x xs ih => exact sortedDesc_insertScoreDesc x ih

lemma filter_insertScoreDesc (v : Nat) (x : GameScore) (l : List GameScore) :
    (insertScoreDesc x l).filter (fun e => e.score == v) =
      (if x.score = v then [x] else []) ++ l.filter (fun e => e.score == v) := by
  induction l with
  | nil => by_cases hx : x.score = v <;> simp [insertScoreDesc, hx]
  | cons y ys ih =>
    rw [insertScoreDesc]
    by_cases hc : x.score < y.score
    · rw [if_pos hc]
      by_cases hx : x.score = v
      · have hy : ¬ y.score = v := by omega
        simp [List.filter_cons, hx, hy, ih]
      · by_cases hy : y.score = v <;> simp [List.filter_cons, hx, hy, ih]
    · rw [if_neg hc]
      by_cases hx : x.score = v <;>
        by_cases hy : y.score = v <;> simp [List.filter_cons, hx, hy]

lemma filter_sortScoresDesc (v : Nat) (l : List GameScore) :
    (sortScoresDesc l).filter (fun e => e.score == v) =
      l.filter (fun e => e.score == v) := by
  induction l with
  | nil => rfl
  | cons x xs ih =>
    rw [sortScoresDesc, filter_insertScoreDesc, ih]
    by_cases hx : x.score = v <;> simp [List.filter_cons, hx]

lemma filter_take_isPrefixOf (p : GameScore → Bool) (n : Nat) (l : List GameScore) :
    (l.take n).filter p <+: l.filter p :=
  ⟨(l.drop n).filter p, by rw [← List.filter_append, List.take_append_drop]⟩

/-- C5: after every `saveHighScore`, the persisted list has at most 10
entries, is sorted by descending score, and for every score value the
retained entries with that score appear in insertion order and are the
earliest-inserted ones (the retained equal-score entries form a prefix of
the equal-score entries of the appended input list); the `highScores` state
equals the persisted value. -/
theorem saveHighScore_leaderboard_invariant (now : Nat) (s : GameLogicState) :
    (saveHighScore now s).storedHighScores.length ≤ 10
    ∧ SortedDesc (saveHighScore now s).storedHighScores
    ∧ (∀ v : Nat,
        (saveHighScore now s).storedHighScores.filter (fun e => e.score == v)
          <+: (s.highScores ++ [mkGameScore s now]).filter (fun e => e.score == v))
    ∧ (saveHighScore now s).highScores = (saveHighScore now s).storedHighScores := by
  refine ⟨?_, ?_, ?_, rfl⟩
  · show ((sortScoresDesc (s.highScores ++ [mkGameScore s now])).take 10).length ≤ 10
    rw [List.length_take]
    exact min_le_left _ _
  · show SortedDesc ((sortScoresDesc (s.highScores ++ [mkGameScore s now])).take 10)
    exact List.Pairwise.sublist (List.take_sublist _ _)
      (sortedDesc_sortScoresDesc (s.highScores ++ [mkGameScore s now]))
  · intro v
    have h := filter_take_isPrefixOf (fun e => e.score == v) 10
      (sortScoresDesc (s.highScores ++ [mkGameScore s now]))
    rwa [filter_sortScoresDesc] at h

/-- The pure selection function honours its filter: as long as some catalog
prompt is still unused with respect to the round-result list it is given,
`getRandomPrompt` never returns a prompt listed there. -/
lemma getRandomPrompt_avoids_used (k : Nat) (rs : List RoundResult)
    (h : 0 < (PROMPTS.filter (fun p => !(rs.any (fun r => r.prompt == p.text)))).length) :
    ∀ r ∈ rs, r.prompt ≠ (getRandomPrompt k rs).text := by
  intro r hr
  unfold getRandomPrompt
  simp only [if_pos h]
  set L := PROMPTS.filter (fun p => !(rs.any (fun r => r.prompt == p.text))) with hL
  have hlt : k % L.length < L.length := Nat.mod_lt _ h
  rw [List.get?_eq_get hlt]
  simp only [Option.getD_some]
  have hmem : L.get ⟨k % L.length, hlt⟩
      ∈ PROMPTS.filter (fun p => !(rs.any (fun r => r.prompt == p.text))) :=
    List.get_mem _ _ _
  have hpred := List.of_mem_filter hmem
  simp only [Bool.not_eq_true', List.any_eq_false, beq_iff_eq] at hpred
  exact hpred r hr

/-- C4 (refuting evaluation): ending round 1 (prompt `dog`) schedules the
next-round callback with the `getRandomPrompt` closure whose captured round
results do not yet include round 1; from `sampleState` with draw index 0
the callback selects `dog` again for round 2, while 19 of the 20 catalog
prompts are still unused. -/
theorem nextPrompt_repeats_previous_round :
    (handleRoundEndFull 0 0 false [] "" sampleState).roundResults.map RoundResult.prompt
        = ["dog"]
    ∧ (handleRoundEndFull 0 0 false [] "" sampleState).currentPrompt
        = some ⟨1, "dog", "animal"⟩
    ∧ (handleRoundEndFull 0 0 false [] "" sampleState).gameState = GameState.playing
    ∧ (PROMPTS.filter (fun p =>
        !((handleRoundEndFull 0 0 false [] "" sampleState).roundResults.any
            (fun r => r.prompt == p.text)))).length = 19 := by
  decide

/-- C8: `classifyDrawing` never fails to its caller: it returns the empty
prediction list when the model is not loaded, returns the empty list when
the model's classification fails internally, and otherwise maps the model's
predictions to `{ className, probability }` pairs. -/
theorem classifyDrawing_total (m : MobileNetModel) (imageData : String) :
    classifyDrawing none imageData = []
    ∧ (∀ e, m.classify imageData = Except.error e →
        classifyDrawing (some m) imageData = [])
    ∧ (∀ preds, m.classify imageData = Except.ok preds →
        classifyDrawing (some m) imageData =
          preds.map (fun pred =>
            { className := pred.className, probability := pred.probability })) := by
  refine ⟨rfl, ?_, ?_⟩
  · intro e he
    simp [classifyDrawing, he]
  · intro preds hp
    simp [classifyDrawing, hp]

/-- A model whose classification always fails. -/
def failingModel : MobileNetModel :=
  ⟨fun _ => Except.error "classification failed"⟩

/-- C8 witness: the theorem applied to a concretely failing model. -/
theorem classifyDrawing_total_witness :
    classifyDrawing (some failingModel) "image" = [] :=
  (classifyDrawing_total failingModel "image").2.1 "classification failed" rfl

end Quickdraw
